import Mathlib

/-!
# Verification of the `ulog` logging core

A shallow embedding of the `ulog` crate (files `src/lib.rs` and
`src/common.rs`): the severity enumeration `ULogLevel` with its derived
ordering and string renderings, the per-statement metadata `ULogData`,
the `StubLogger`, `ChainLogger` and `MinLevelLogger` recorders, the
borrowed-reference forwarding implementation, and the call sequence
produced by the `ulog!` statement macro.

Recorders are modelled by a deep embedding of the composition tree
(`Logger`), whose operational semantics return the ordered list of
(leaf id, call) invocations that reach leaf recorders; this makes call
order and per-leaf observations explicit, exactly what the decorator
code determines.
-/

/-- The `ULogLevel` enum from `src/lib.rs` (five variants in declaration
order; `derive(PartialOrd, Ord)` orders them by discriminant). -/
inductive ULogLevel
  | Debug
  | Info
  | Warning
  | Error
  | Critical
deriving DecidableEq, Repr

namespace ULogLevel

/-- The discriminant of each variant, in declaration order; the derived
Rust ordering on `ULogLevel` compares these. -/
def rank : ULogLevel → Nat
  | Debug => 0
  | Info => 1
  | Warning => 2
  | Error => 3
  | Critical => 4

/-- The derived `<=` comparison of `ULogLevel` (by discriminant). -/
def le (a b : ULogLevel) : Bool := decide (a.rank ≤ b.rank)

/-- The derived `<` comparison of `ULogLevel` (by discriminant). -/
def lt (a b : ULogLevel) : Bool := decide (a.rank < b.rank)

/-- `From<&ULogLevel> for &'static str` / `ULogLevel::as_str` from
`src/lib.rs`. -/
def as_str : ULogLevel → String
  | Debug => "DEBUG"
  | Info => "INFO"
  | Warning => "WARN"
  | Error => "ERROR"
  | Critical => "CRITICAL"

/-- `ULogLevel::as_short_str` from `src/lib.rs`. -/
def as_short_str : ULogLevel → String
  | Debug => "DBG"
  | Info => "INF"
  | Warning => "WRN"
  | Error => "ERR"
  | Critical => "CRT"

/-- The `Display` implementation for `ULogLevel` from `src/lib.rs`:
`write!(f, "\x7b\x7d", self.as_str())`. -/
def display (l : ULogLevel) : String := l.as_str

/-- `ULogLevel::all_levels` from `src/lib.rs`. -/
def all_levels : List ULogLevel := [Debug, Info, Warning, Error, Critical]

end ULogLevel

/-- The `ULogData` struct from `src/lib.rs`: per-statement metadata. -/
structure ULogData where
  level : ULogLevel
  line : Nat
  file : String
deriving DecidableEq, Repr

/-- `ULogData::new` from `src/lib.rs`. -/
def ULogData.new (level : ULogLevel) (line : Nat) (file : String) : ULogData :=
  ⟨level, line, file⟩

/-- One invocation of a `ULog` trait operation, with its arguments.
`V` is the generic `Debug`-formattable value type of `log_format`. -/
inductive Call (V : Type)
  | log_begin (log_data : ULogData)
  | log_str (log_data : ULogData) (string : String)
  | log_format (log_data : ULogData) (key : String) (value : V)
  | log_end (log_data : ULogData)
deriving DecidableEq, Repr

/-- The metadata argument carried by a call (every operation takes
`log_data` by reference). -/
def Call.data {V : Type} : Call V → ULogData
  | .log_begin d => d
  | .log_str d _ => d
  | .log_format d _ _ => d
  | .log_end d => d

/-- A recorder value built from the recorders defined in `src/common.rs`
and `src/lib.rs`: `stub` is `StubLogger`, `chain p c` is
`ChainLogger \x7b parent: p, current: c \x7d`, `minLevel l t` is
`MinLevelLogger \x7b logger: l, min_level: t \x7d`, `ref l` is the
borrowed reference `&l` (whose `ULog` impl forwards to the referent),
and `leaf i` stands for an arbitrary external leaf recorder identified
by `i` (a concrete destination, outside the core). -/
inductive Logger
  | stub
  | leaf (id : Nat)
  | chain (parent current : Logger)
  | minLevel (logger : Logger) (min_level : ULogLevel)
  | ref (logger : Logger)
deriving DecidableEq, Repr

namespace Logger

/-- Trace semantics of `log_str`: the ordered list of (leaf id, call)
invocations reaching leaf recorders. Each equation mirrors the
corresponding `fn log_str` body: `StubLogger` does nothing, a leaf
records the call, `ChainLogger` calls `parent` then `current`,
`MinLevelLogger` forwards only `if log_data.level >= self.min_level`,
and `&Logger` forwards to the referent. -/
def log_str {V : Type} : Logger → ULogData → String → List (Nat × Call V)
  | stub, _, _ => []
  | leaf i, d, s => [(i, .log_str d s)]
  | chain p c, d, s => p.log_str d s ++ c.log_str d s
  | minLevel l t, d, s => if ULogLevel.le t d.level then l.log_str d s else []
  | ref l, d, s => l.log_str d s

/-- Trace semantics of `log_format`, mirroring each `fn log_format` body. -/
def log_format {V : Type} : Logger → ULogData → String → V → List (Nat × Call V)
  | stub, _, _, _ => []
  | leaf i, d, k, v => [(i, .log_format d k v)]
  | chain p c, d, k, v => p.log_format d k v ++ c.log_format d k v
  | minLevel l t, d, k, v => if ULogLevel.le t d.level then l.log_format d k v else []
  | ref l, d, k, v => l.log_format d k v

/-- Trace semantics of `log_begin`, mirroring each `fn log_begin` body. -/
def log_begin {V : Type} : Logger → ULogData → List (Nat × Call V)
  | stub, _ => []
  | leaf i, d => [(i, .log_begin d)]
  | chain p c, d => p.log_begin d ++ c.log_begin d
  | minLevel l t, d => if ULogLevel.le t d.level then l.log_begin d else []
  | ref l, d => l.log_begin d

/-- Trace semantics of `log_end`, mirroring each `fn log_end` body. -/
def log_end {V : Type} : Logger → ULogData → List (Nat × Call V)
  | stub, _ => []
  | leaf i, d => [(i, .log_end d)]
  | chain p c, d => p.log_end d ++ c.log_end d
  | minLevel l t, d => if ULogLevel.le t d.level then l.log_end d else []
  | ref l, d => l.log_end d

/-- Dispatch one `Call` to the matching trait operation. -/
def runCall {V : Type} (l : Logger) : Call V → List (Nat × Call V)
  | .log_begin d => l.log_begin d
  | .log_str d s => l.log_str d s
  | .log_format d k v => l.log_format d k v
  | .log_end d => l.log_end d

/-- Run a sequence of calls against a recorder, concatenating the
resulting leaf traces in order. -/
def runCalls {V : Type} (l : Logger) (cs : List (Call V)) : List (Nat × Call V) :=
  cs.flatMap l.runCall

end Logger

/-- The subsequence of calls that reach (are observed by) leaf `i` in a
trace. -/
def observedBy {V : Type} (i : Nat) (tr : List (Nat × Call V)) : List (Call V) :=
  (tr.filter (fun e => e.1 == i)).map (fun e => e.2)

/-- The capturing recorder of the crate tests (`TestLogger` in
`src/lib.rs`): each call is recorded as a (level, string) pair, with
`log_format` rendered as `"\x7bname\x7d => \x7bvalue:?\x7d"`, given a
`Debug`-rendering function for `V`. -/
def captureEntry {V : Type} (debugFmt : V → String) : Call V → ULogLevel × String
  | .log_begin d => (d.level, "__BEGIN__")
  | .log_str d s => (d.level, s)
  | .log_format d k v => (d.level, k ++ " => " ++ debugFmt v)
  | .log_end d => (d.level, "__END__")

/-- The `ChainLogger` struct from `src/common.rs`, as a plain ownership
pair (for the constructor/unwrapping interface). -/
structure ChainLogger (Parent Current : Type) where
  parent : Parent
  current : Current
deriving DecidableEq, Repr

/-- `ChainLogger::new` from `src/common.rs`. -/
def ChainLogger.new {P C : Type} (parent : P) (current : C) : ChainLogger P C :=
  ⟨parent, current⟩

/-- `ChainLogger::into_inner` from `src/common.rs`. -/
def ChainLogger.into_inner {P C : Type} (s : ChainLogger P C) : P × C :=
  (s.parent, s.current)

/-- The `MinLevelLogger` struct from `src/common.rs`, as plain owned
data; the `min_level` projection is the accessor `fn min_level`. -/
structure MinLevelLogger (L : Type) where
  logger : L
  min_level : ULogLevel
deriving DecidableEq, Repr

/-- `MinLevelLogger::new` from `src/common.rs`. -/
def MinLevelLogger.new {L : Type} (logger : L) (min_level : ULogLevel) :
    MinLevelLogger L :=
  ⟨logger, min_level⟩

/-- `MinLevelLogger::into_inner` from `src/common.rs`. -/
def MinLevelLogger.into_inner {L : Type} (s : MinLevelLogger L) : L :=
  s.logger

/-- The sequence of `ULog` calls issued by one expansion of the `ulog!`
macro from `src/lib.rs`: it builds `log_data` once from
`(level, line!(), file!())`, then issues `log_begin`, `log_str` with
the message, one `log_format` per `name => value` pair in textual
order, and `log_end`, all with a reference to the same `log_data`.
(The one-argument arm is the `pairs = []` case.) -/
def ulogCalls {V : Type} (level : ULogLevel) (line : Nat) (file : String)
    (str : String) (pairs : List (String × V)) : List (Call V) :=
  let log_data := ULogData.new level line file
  .log_begin log_data :: .log_str log_data str ::
    (pairs.map (fun p => Call.log_format log_data p.1 p.2) ++ [.log_end log_data])

/-- C3: `ULogLevel` has exactly the five values
[Debug, Info, Warning, Error, Critical]; `all_levels` returns exactly
that list in ascending order, and for all indices `i < j` into it the
`i`-th severity compares strictly less than the `j`-th under the
derived total order. -/
theorem severity_order_and_enumeration :
    ULogLevel.all_levels =
      [.Debug, .Info, .Warning, .Error, .Critical] ∧
    ∀ i j : Fin ULogLevel.all_levels.length, (i : Nat) < (j : Nat) →
      ULogLevel.lt (ULogLevel.all_levels.get i) (ULogLevel.all_levels.get j) = true := by
  exact ⟨rfl, by decide⟩

/-- Witness for C3: indices 0 and 4 (Debug and Critical). -/
theorem severity_order_and_enumeration_witness :
    (((⟨0, by decide⟩ : Fin ULogLevel.all_levels.length) : Fin _) : Nat) <
      ((⟨4, by decide⟩ : Fin ULogLevel.all_levels.length) : Nat) ∧
    ULogLevel.lt (ULogLevel.all_levels.get ⟨0, by decide⟩)
      (ULogLevel.all_levels.get ⟨4, by decide⟩) = true :=
  ⟨by decide, severity_order_and_enumeration.2 ⟨0, by decide⟩ ⟨4, by decide⟩ (by decide)⟩

/-- C4: the long-name rendering `as_str` and the 3-character short-code
rendering `as_short_str` are exactly the fixed pairs DEBUG/DBG,
INFO/INF, WARN/WRN, ERROR/ERR, CRITICAL/CRT, and every short code has
exactly three characters. -/
theorem severity_string_renderings :
    (ULogLevel.as_str .Debug = "DEBUG" ∧ ULogLevel.as_short_str .Debug = "DBG") ∧
    (ULogLevel.as_str .Info = "INFO" ∧ ULogLevel.as_short_str .Info = "INF") ∧
    (ULogLevel.as_str .Warning = "WARN" ∧ ULogLevel.as_short_str .Warning = "WRN") ∧
    (ULogLevel.as_str .Error = "ERROR" ∧ ULogLevel.as_short_str .Error = "ERR") ∧
    (ULogLevel.as_str .Critical = "CRITICAL" ∧ ULogLevel.as_short_str .Critical = "CRT") ∧
    ∀ l : ULogLevel, (ULogLevel.as_short_str l).length = 3 := by
  refine ⟨⟨rfl, rfl⟩, ⟨rfl, rfl⟩, ⟨rfl, rfl⟩, ⟨rfl, rfl⟩, ⟨rfl, rfl⟩, ?_⟩
  intro l
  cases l <;> rfl

/-- C10: the `Display` rendering of every severity equals its long name
`as_str`; in particular `Warning` displays as "WARN", not "WARNING". -/
theorem severity_display_equals_long_name :
    (∀ l : ULogLevel, ULogLevel.display l = ULogLevel.as_str l) ∧
    ULogLevel.display .Warning = "WARN" ∧
    ULogLevel.display .Warning ≠ "WARNING" := by
  refine ⟨fun l => rfl, rfl, ?_⟩
  decide

/-- C6: unwrapping a `ChainLogger` built with `new` returns exactly the
pair (parent, current) it was constructed from; unwrapping a
`MinLevelLogger` returns exactly the inner recorder, and its
`min_level` accessor returns exactly the configured threshold. -/
theorem into_inner_round_trip {P C L : Type} (p : P) (c : C) (l : L) (t : ULogLevel) :
    (ChainLogger.new p c).into_inner = (p, c) ∧
    (MinLevelLogger.new l t).min_level = t ∧
    (MinLevelLogger.new l t).into_inner = l :=
  ⟨rfl, rfl, rfl⟩

theorem Logger.runCall_stub_eq {V : Type} (c : Call V) :
    Logger.runCall .stub c = [] := by
  cases c <;> rfl

theorem Logger.runCall_ref_eq {V : Type} (l : Logger) (c : Call V) :
    Logger.runCall (.ref l) c = l.runCall c := by
  cases c <;> rfl

theorem ULogLevel.le_Debug_eq (l : ULogLevel) : ULogLevel.le .Debug l = true := by
  cases l <;> rfl

theorem Logger.runCall_minLevel_Debug_eq {V : Type} (R : Logger) (c : Call V) :
    Logger.runCall (.minLevel R .Debug) c = R.runCall c := by
  cases c <;>
    simp [Logger.runCall, Logger.log_begin, Logger.log_str, Logger.log_format,
      Logger.log_end, ULogLevel.le_Debug_eq]

/-- C7: every operation of the `StubLogger` is a no-op: no leaf
recorder observes anything, for any metadata, string, key and value,
and any whole sequence of calls produces the empty trace. -/
theorem stub_recorder_noop {V : Type} (d : ULogData) (s k : String) (v : V)
    (cs : List (Call V)) :
    (Logger.log_begin .stub d : List (Nat × Call V)) = [] ∧
    Logger.log_str .stub d s = ([] : List (Nat × Call V)) ∧
    Logger.log_format .stub d k v = [] ∧
    (Logger.log_end .stub d : List (Nat × Call V)) = [] ∧
    Logger.runCalls .stub cs = [] := by
  refine ⟨rfl, rfl, rfl, rfl, ?_⟩
  induction cs with
  | nil => rfl
  | cons c rest ih =>
    simp [Logger.runCalls, Logger.runCall_stub_eq, ih]

/-- C8: the `ULog` implementation for a borrowed reference `&Logger`
forwards each of the four operations to the referent with unchanged
arguments, so a reference to a recorder is observationally equivalent
to the recorder itself over any sequence of calls. -/
theorem ref_forwards_to_referent {V : Type} (l : Logger) (d : ULogData)
    (s k : String) (v : V) (cs : List (Call V)) :
    ((Logger.ref l).log_begin d : List (Nat × Call V)) = l.log_begin d ∧
    (Logger.ref l).log_str d s = (l.log_str d s : List (Nat × Call V)) ∧
    (Logger.ref l).log_format d k v = l.log_format d k v ∧
    ((Logger.ref l).log_end d : List (Nat × Call V)) = l.log_end d ∧
    Logger.runCalls (.ref l) cs = Logger.runCalls l cs := by
  refine ⟨rfl, rfl, rfl, rfl, ?_⟩
  induction cs with
  | nil => rfl
  | cons c rest ih =>
    simp [Logger.runCalls, Logger.runCall_ref_eq] at ih ⊢
    exact ih

/-- C9: a `MinLevelLogger` with threshold `Debug` forwards every call
of all four operations unchanged (Debug is the minimum severity), so
`MinLevelLogger::new(R, Debug)` is observationally equivalent to `R`
over any sequence of calls. -/
theorem min_level_debug_is_transparent {V : Type} (R : Logger) (d : ULogData)
    (s k : String) (v : V) (cs : List (Call V)) :
    ((Logger.minLevel R .Debug).log_begin d : List (Nat × Call V)) = R.log_begin d ∧
    (Logger.minLevel R .Debug).log_str d s = (R.log_str d s : List (Nat × Call V)) ∧
    (Logger.minLevel R .Debug).log_format d k v = R.log_format d k v ∧
    ((Logger.minLevel R .Debug).log_end d : List (Nat × Call V)) = R.log_end d ∧
    Logger.runCalls (.minLevel R .Debug) cs = Logger.runCalls R cs := by
  refine ⟨?_, ?_, ?_, ?_, ?_⟩
  · simp [Logger.log_begin, ULogLevel.le_Debug_eq]
  · simp [Logger.log_str, ULogLevel.le_Debug_eq]
  · simp [Logger.log_format, ULogLevel.le_Debug_eq]
  · simp [Logger.log_end, ULogLevel.le_Debug_eq]
  · induction cs with
    | nil => rfl
    | cons c rest ih =>
      simp [Logger.runCalls, Logger.runCall_minLevel_Debug_eq] at ih ⊢
      exact ih

/-- C1: for every inner recorder `R`, threshold `t`, and metadata, each
of the four `MinLevelLogger` operations forwards the call to `R`
exactly when the metadata's severity is at or above `t`, and is a no-op
(`R` observes nothing) when it is strictly below `t`; the comparison is
made independently on each operation from that call's own metadata
(here `m1`..`m4`), not cached per statement. -/
theorem min_level_filters_each_call {V : Type} (R : Logger) (t : ULogLevel)
    (m1 m2 m3 m4 : ULogData) (s k : String) (v : V) :
    (ULogLevel.le t m1.level = true →
      ((Logger.minLevel R t).log_begin m1 : List (Nat × Call V)) = R.log_begin m1) ∧
    (ULogLevel.le t m1.level = false →
      ((Logger.minLevel R t).log_begin m1 : List (Nat × Call V)) = []) ∧
    (ULogLevel.le t m2.level = true →
      (Logger.minLevel R t).log_str m2 s = (R.log_str m2 s : List (Nat × Call V))) ∧
    (ULogLevel.le t m2.level = false →
      (Logger.minLevel R t).log_str m2 s = ([] : List (Nat × Call V))) ∧
    (ULogLevel.le t m3.level = true →
      (Logger.minLevel R t).log_format m3 k v = R.log_format m3 k v) ∧
    (ULogLevel.le t m3.level = false →
      (Logger.minLevel R t).log_format m3 k v = []) ∧
    (ULogLevel.le t m4.level = true →
      ((Logger.minLevel R t).log_end m4 : List (Nat × Call V)) = R.log_end m4) ∧
    (ULogLevel.le t m4.level = false →
      ((Logger.minLevel R t).log_end m4 : List (Nat × Call V)) = []) := by
  refine ⟨?_, ?_, ?_, ?_, ?_, ?_, ?_, ?_⟩ <;> intro h <;>
    simp [Logger.log_begin, Logger.log_str, Logger.log_format, Logger.log_end, h]

/-- Witness for C1: threshold Warning over a leaf recorder, with an
Error-severity call forwarded and a Debug-severity call suppressed. -/
theorem min_level_filters_each_call_witness :
    ((Logger.minLevel (.leaf 0) .Warning).log_begin (ULogData.new .Error 7 "a.rs") :
        List (Nat × Call Int)) =
      Logger.log_begin (.leaf 0) (ULogData.new .Error 7 "a.rs") ∧
    (Logger.minLevel (.leaf 0) .Warning).log_str (ULogData.new .Debug 8 "a.rs") "x" =
      ([] : List (Nat × Call Int)) :=
  ⟨(min_level_filters_each_call (.leaf 0) .Warning (ULogData.new .Error 7 "a.rs")
      (ULogData.new .Debug 8 "a.rs") (ULogData.new .Error 7 "a.rs")
      (ULogData.new .Error 7 "a.rs") "x" "k" (0 : Int)).1 (by decide),
   (min_level_filters_each_call (.leaf 0) .Warning (ULogData.new .Error 7 "a.rs")
      (ULogData.new .Debug 8 "a.rs") (ULogData.new .Error 7 "a.rs")
      (ULogData.new .Error 7 "a.rs") "x" "k" (0 : Int)).2.2.2.1 (by decide)⟩

theorem Logger.runCall_chain_leaf_eq {V : Type} (a b : Nat) (x : Call V) :
    Logger.runCall (.chain (.leaf a) (.leaf b)) x = [(a, x), (b, x)] := by
  cases x <;> rfl

theorem observedBy_append {V : Type} (i : Nat) (xs ys : List (Nat × Call V)) :
    observedBy i (xs ++ ys) = observedBy i xs ++ observedBy i ys := by
  simp [observedBy]

theorem runCalls_chain_leaf_eq {V : Type} (a b : Nat) (cs : List (Call V)) :
    Logger.runCalls (.chain (.leaf a) (.leaf b)) cs =
      cs.flatMap (fun x => [(a, x), (b, x)]) := by
  induction cs with
  | nil => rfl
  | cons x rest ih =>
    simp [Logger.runCalls, Logger.runCall_chain_leaf_eq, ih] at ih ⊢
    exact ih

theorem observedBy_pair_flatMap {V : Type} (a b : Nat) (h : a ≠ b)
    (cs : List (Call V)) :
    observedBy a (cs.flatMap fun x => [(a, x), (b, x)]) = cs ∧
    observedBy b (cs.flatMap fun x => [(a, x), (b, x)]) = cs := by
  induction cs with
  | nil => exact ⟨rfl, rfl⟩
  | cons x rest ih =>
    have ha : observedBy a [(a, x), (b, x)] = [x] := by
      simp [observedBy, Ne.symm h]
    have hb : observedBy b [(a, x), (b, x)] = [x] := by
      simp [observedBy, h]
    refine ⟨?_, ?_⟩ <;>
      simp only [List.flatMap_cons, observedBy_append, ha, hb, ih.1, ih.2,
        List.singleton_append]

/-- C2: every `ChainLogger` operation invokes the corresponding
operation on `parent` first and then on `current` with identical
arguments (the trace is parent's trace followed by current's); hence
two distinct leaf recorders composed as `ChainLogger::new(A, B)` both
observe any whole call sequence identically, with A's invocation
preceding B's for each individual call. -/
theorem chain_parent_then_current {V : Type} (p c : Logger) (d : ULogData)
    (s k : String) (v : V) (a b : Nat) (cs : List (Call V)) :
    ((Logger.chain p c).log_begin d : List (Nat × Call V)) =
      p.log_begin d ++ c.log_begin d ∧
    (Logger.chain p c).log_str d s =
      (p.log_str d s ++ c.log_str d s : List (Nat × Call V)) ∧
    (Logger.chain p c).log_format d k v =
      p.log_format d k v ++ c.log_format d k v ∧
    ((Logger.chain p c).log_end d : List (Nat × Call V)) =
      p.log_end d ++ c.log_end d ∧
    (a ≠ b →
      Logger.runCalls (.chain (.leaf a) (.leaf b)) cs =
        cs.flatMap (fun x => [(a, x), (b, x)]) ∧
      observedBy a (Logger.runCalls (.chain (.leaf a) (.leaf b)) cs) = cs ∧
      observedBy b (Logger.runCalls (.chain (.leaf a) (.leaf b)) cs) = cs) := by
  refine ⟨rfl, rfl, rfl, rfl, fun h => ?_⟩
  have hrun := runCalls_chain_leaf_eq a b cs
  have hobs := observedBy_pair_flatMap a b h cs
  exact ⟨hrun, by rw [hrun]; exact hobs.1, by rw [hrun]; exact hobs.2⟩

/-- Witness for C2: leaves 0 and 1 chained, one begin call observed
identically by both, parent entry first. -/
theorem chain_parent_then_current_witness :
    (0 : Nat) ≠ 1 ∧
    observedBy 0 (Logger.runCalls (.chain (.leaf 0) (.leaf 1))
        ([Call.log_begin (ULogData.new .Info 1 "m")] : List (Call Int))) =
      [Call.log_begin (ULogData.new .Info 1 "m")] :=
  ⟨by decide,
    ((chain_parent_then_current (.leaf 0) (.leaf 1) (ULogData.new .Info 1 "m")
        "" "" (0 : Int) 0 1
        [Call.log_begin (ULogData.new .Info 1 "m")]).2.2.2.2 (by decide)).2.1⟩

/-- C5: one `ulog!` expansion issues exactly `log_begin`, then
`log_str` with the message, then one `log_format` per pair in call-site
order, then `log_end`, every call carrying the same metadata built once
from (level, line, file); concretely, capturing an Error statement with
text "world" and the pair ("value", 32) yields
[(Error, BEGIN), (Error, "world"), (Error, "value => 32"), (Error, END)]. -/
theorem ulog_statement_protocol {V : Type} (level : ULogLevel) (line : Nat)
    (file : String) (str : String) (pairs : List (String × V)) :
    ulogCalls level line file str pairs =
      [Call.log_begin (ULogData.new level line file),
       Call.log_str (ULogData.new level line file) str] ++
        pairs.map (fun p => Call.log_format (ULogData.new level line file) p.1 p.2) ++
        [Call.log_end (ULogData.new level line file)] ∧
    (∀ cl ∈ ulogCalls level line file str pairs,
      cl.data = ULogData.new level line file) ∧
    (ulogCalls .Error 1 "main.rs" "world" [("value", (32 : Int))]).map
        (captureEntry toString) =
      [(ULogLevel.Error, "__BEGIN__"), (ULogLevel.Error, "world"),
       (ULogLevel.Error, "value => 32"), (ULogLevel.Error, "__END__")] := by
  refine ⟨rfl, ?_, rfl⟩
  intro cl hcl
  simp only [ulogCalls, List.mem_cons, List.mem_append, List.mem_map,
    List.mem_singleton] at hcl
  rcases hcl with rfl | rfl | ⟨p, hp, rfl⟩ | rfl | h
  · rfl
  · rfl
  · rfl
  · rfl
  · cases h

/-- Witness for C5: the `log_str` call of the Error/"world" statement is
one of the issued calls and carries the shared metadata. -/
theorem ulog_statement_protocol_witness :
    (Call.log_str (ULogData.new .Error 1 "main.rs") "world" : Call Int) ∈
      ulogCalls .Error 1 "main.rs" "world" [("value", (32 : Int))] ∧
    (Call.log_str (ULogData.new .Error 1 "main.rs") "world" : Call Int).data =
      ULogData.new .Error 1 "main.rs" :=
  ⟨by simp [ulogCalls],
   (ulog_statement_protocol .Error 1 "main.rs" "world" [("value", (32 : Int))]).2.1
     (Call.log_str (ULogData.new .Error 1 "main.rs") "world")
     (by simp [ulogCalls])⟩

/-- Witness for C4: the short code of Critical has three characters. -/
theorem severity_string_renderings_witness :
    (ULogLevel.as_short_str .Critical).length = 3 :=
  severity_string_renderings.2.2.2.2.2 .Critical

/-- Witness for C10: Warning displays as its long name. -/
theorem severity_display_equals_long_name_witness :
    ULogLevel.display .Warning = ULogLevel.as_str .Warning :=
  severity_display_equals_long_name.1 .Warning

/-- Witness for C6: a concrete round trip at Nat-valued recorders. -/
theorem into_inner_round_trip_witness :
    (ChainLogger.new 1 2).into_inner = ((1 : Nat), (2 : Nat)) ∧
    (MinLevelLogger.new (5 : Nat) .Warning).min_level = ULogLevel.Warning ∧
    (MinLevelLogger.new (5 : Nat) .Warning).into_inner = 5 :=
  into_inner_round_trip 1 2 5 .Warning

/-- Witness for C7: a concrete call sequence against `StubLogger`
leaves the trace empty. -/
theorem stub_recorder_noop_witness :
    Logger.runCalls .stub
      ([Call.log_begin (ULogData.new .Critical 3 "w.rs"),
        Call.log_str (ULogData.new .Critical 3 "w.rs") "oops"] : List (Call Int)) = [] :=
  (stub_recorder_noop (ULogData.new .Critical 3 "w.rs") "oops" "k" (0 : Int)
    [Call.log_begin (ULogData.new .Critical 3 "w.rs"),
     Call.log_str (ULogData.new .Critical 3 "w.rs") "oops"]).2.2.2.2

/-- Witness for C8: a reference to leaf 3 runs a concrete sequence
exactly as leaf 3 does. -/
theorem ref_forwards_to_referent_witness :
    Logger.runCalls (.ref (.leaf 3))
        ([Call.log_begin (ULogData.new .Info 2 "r.rs")] : List (Call Int)) =
      Logger.runCalls (.leaf 3) [Call.log_begin (ULogData.new .Info 2 "r.rs")] :=
  (ref_forwards_to_referent (.leaf 3) (ULogData.new .Info 2 "r.rs") "s" "k" (0 : Int)
    [Call.log_begin (ULogData.new .Info 2 "r.rs")]).2.2.2.2

/-- Witness for C9: a Debug-threshold filter around leaf 2 runs a
concrete sequence exactly as leaf 2 does. -/
theorem min_level_debug_is_transparent_witness :
    Logger.runCalls (.minLevel (.leaf 2) .Debug)
        ([Call.log_begin (ULogData.new .Debug 4 "d.rs")] : List (Call Int)) =
      Logger.runCalls (.leaf 2) [Call.log_begin (ULogData.new .Debug 4 "d.rs")] :=
  (min_level_debug_is_transparent (.leaf 2) (ULogData.new .Debug 4 "d.rs") "s" "k"
    (0 : Int) [Call.log_begin (ULogData.new .Debug 4 "d.rs")]).2.2.2.2
